import Mathlib

/-!
Shallow embedding of `real_time_monitor.py` (WSN-Real-Time-Monitoring).

Modelling conventions:
* Python floats are modelled as `ℚ` (exact rationals).  `round(x, 2)` is
  modelled by `round2` (round-half-up on the scaled rational); no claim in
  this development evaluates the rounding at a tie, so the tie-breaking
  convention is immaterial.
* A decoded JSON message value is an `MVal`: a number (`num`, anything Python
  `float()` accepts, covering numeric strings as well), a non-numeric string
  (`str`, on which `float()` raises `ValueError`), or `nan` (a missing cell
  produced by pandas when a row lacks a column that other rows have).
* Python dicts are association lists with unique keys; `dput` mirrors
  `d[k] = v` / `dict.update` (replace in place, append fresh keys at the end),
  `ddel` mirrors `d.pop(k, None)`, `dlookup` mirrors `d[k]` returning `none`
  in place of `KeyError`.
* The `piezoString` value of a RigX message is carried in `Msg.piezo` as the
  list of its comma-split tokens, each already classified as parseable
  (`num`) or not (`str`); the payload dict itself never stores it, matching
  the code which excludes it from the update and pops it.
* A Python exception is an explicit `PyErr`; a handler that raises mid-way
  returns the state as mutated so far together with the error, matching
  in-place mutation of the module globals.
-/

set_option maxRecDepth 100000

namespace WSN

inductive PyErr where
  | keyError
  | indexError
  | valueError
  | typeError
  | attributeError
  deriving DecidableEq, Repr

inductive MVal where
  | num (q : ℚ)
  | str (s : String)
  | nan
  deriving DecidableEq, Repr

abbrev Dict := List (String × MVal)

/-- First-match association-list lookup, modelling Python `d[k]`
(`none` in place of `KeyError`). -/
def dlookup {α : Type} : List (String × α) → String → Option α
  | [], _ => none
  | (k, v) :: d, k0 => if k = k0 then some v else dlookup d k0

/-- Python `d[k] = v`: replace the value in place if the key exists,
otherwise append the new pair at the end (insertion order preserved). -/
def dput {α : Type} : List (String × α) → String → α → List (String × α)
  | [], k0, v0 => [(k0, v0)]
  | (k, v) :: d, k0, v0 => if k = k0 then (k0, v0) :: d else (k, v) :: dput d k0 v0

/-- Python `d.pop(k, None)`: drop the entry with the given key, if any. -/
def ddel {α : Type} : List (String × α) → String → List (String × α)
  | [], _ => []
  | (k, v) :: d, k0 => if k = k0 then d else (k, v) :: ddel d k0

/-- Python `float(v)`: numbers (and numeric strings, folded into `num`)
parse; non-numeric strings do not. -/
def asFloat : MVal → Option ℚ
  | MVal.num q => some q
  | MVal.str _ => none
  | MVal.nan => none

/-- Python `round(x, 2)` modelled on rationals (round-half-up on the
scaled value; executable via the Batteries floor on `ℚ`). -/
def round2 (q : ℚ) : ℚ := ((Rat.floor (q * 100 + 1 / 2) : ℤ) : ℚ) / 100

/-- Python `int(x)` (truncation toward zero). -/
def pyInt (q : ℚ) : ℤ := if q < 0 then -Rat.floor (-q) else Rat.floor q

instance {ε α : Type} [DecidableEq ε] [DecidableEq α] : DecidableEq (Except ε α) :=
  fun x y =>
    match x, y with
    | Except.ok a, Except.ok b =>
      match decEq a b with
      | isTrue h => isTrue (by rw [h])
      | isFalse h => isFalse (fun hh => h (by cases hh; rfl))
    | Except.error a, Except.error b =>
      match decEq a b with
      | isTrue h => isTrue (by rw [h])
      | isFalse h => isFalse (fun hh => h (by cases hh; rfl))
    | Except.ok _, Except.error _ => isFalse (fun hh => by cases hh)
    | Except.error _, Except.ok _ => isFalse (fun hh => by cases hh)

/-- Python list indexing `l[i]` with wraparound for negative indices and
`IndexError` when out of range. -/
def pyGet {α : Type} (l : List α) (i : ℤ) : Except PyErr α :=
  let j : ℤ := if i < 0 then i + l.length else i
  if 0 ≤ j ∧ j < l.length then
    match l.get? j.toNat with
    | some v => Except.ok v
    | none => Except.error PyErr.indexError
  else Except.error PyErr.indexError

/-- Python `l[i] = v` (non-negative index), `IndexError` when out of range. -/
def pySet {α : Type} (l : List α) (i : ℕ) (v : α) : Except PyErr (List α) :=
  if i < l.length then Except.ok (l.set i v) else Except.error PyErr.indexError

/-- Python `v < c` for a pandas cell: numbers compare, NaN compares `False`,
a string raises `TypeError`. -/
def ltc : MVal → ℚ → Except PyErr Bool
  | MVal.num q, c => Except.ok (decide (q < c))
  | MVal.nan, _ => Except.ok false
  | MVal.str _, _ => Except.error PyErr.typeError

/-- The y-coordinate the classifier assigns to detection index `i`
(`(250 / 9) * (i + 1)` in the source). -/
def yCoord (i : ℕ) : ℚ := 250 / 9 * ((i : ℚ) + 1)

/-- Accumulator of `decide_pos`: seated (green) and standing (red)
coordinate lists. -/
structure DPAcc where
  gx : List ℚ
  gy : List ℚ
  rx : List ℚ
  ry : List ℚ
  deriving DecidableEq, Repr

/-- One iteration of the `RunMqtt.decide_pos` loop body (lines 360-374):
skip when the index equals the `ignore` marker, skip readings at or above
250, otherwise classify through the two auxiliary lookups (Python's
short-circuit `or` is preserved) and set `ignore = i + 1`.  Returns the
updated `ignore` marker and accumulator. -/
def dpStep (a b : List MVal) (i : ℕ) (ignore : ℕ) (acc : DPAcc) :
    Except PyErr (ℕ × DPAcc) :=
  if ignore = i then Except.ok (ignore, acc)
  else
    match a.get? i with
    | none => Except.error PyErr.indexError
    | some (MVal.str _) => Except.error PyErr.typeError
    | some MVal.nan => Except.ok (ignore, acc)
    | some (MVal.num q) =>
      if q < 250 then
        let y : ℚ := yCoord i
        let xp : ℤ := pyInt (q / 28)
        let before : ℤ := xp - 1
        match pyGet b (xp - 1) with
        | Except.error e => Except.error e
        | Except.ok bv =>
          match ltc bv 180 with
          | Except.error e => Except.error e
          | Except.ok true =>
            Except.ok (i + 1, { acc with rx := acc.rx ++ [q], ry := acc.ry ++ [y] })
          | Except.ok false =>
            match pyGet b (before - 1) with
            | Except.error e => Except.error e
            | Except.ok bv2 =>
              match ltc bv2 180 with
              | Except.error e => Except.error e
              | Except.ok true =>
                Except.ok (i + 1, { acc with rx := acc.rx ++ [q], ry := acc.ry ++ [y] })
              | Except.ok false =>
                Except.ok (i + 1, { acc with gx := acc.gx ++ [q], gy := acc.gy ++ [y] })
      else Except.ok (ignore, acc)

/-- The `decide_pos` loop: run `dpStep` over the index list, threading the
`ignore` marker and the accumulator, propagating any raised error. -/
def dpGo (a b : List MVal) : List ℕ → ℕ → DPAcc → Except PyErr DPAcc
  | [], _, acc => Except.ok acc
  | i :: is, ignore, acc =>
    match dpStep a b i ignore acc with
    | Except.error e => Except.error e
    | Except.ok (ig2, acc2) => dpGo a b is ig2 acc2

/-- `RunMqtt.decide_pos(a, b)`: `ignore` starts at `0`, the loop runs over
`range(len(a))`. -/
def decide_pos (a b : List MVal) : Except PyErr DPAcc :=
  dpGo a b (List.range a.length) 0 ⟨[], [], [], []⟩

/-- `decide_pos` applied to plain numeric series. -/
def decide_posQ (a b : List ℚ) : Except PyErr DPAcc :=
  decide_pos (a.map MVal.num) (b.map MVal.num)

/-- The computation finished without raising. -/
def exOk {ε α : Type} : Except ε α → Bool
  | Except.ok _ => true
  | Except.error _ => false

/-- Index `i` contributed a position: its y-coordinate appears in the seated
or the standing output list. -/
def hits (r : DPAcc) (i : ℕ) : Prop := yCoord i ∈ r.gy ∨ yCoord i ∈ r.ry

instance (r : DPAcc) (i : ℕ) : Decidable (hits r i) := by
  unfold hits; infer_instance

/-! ### The MQTT receive pipeline (`RunMqtt.recmsg` and its globals) -/

/-- Module global `y_keys` (line 63). -/
def y_keys : List String := ["x7", "x6", "x5", "x4", "x3", "x2", "x1", "x0"]

/-- Module global `x_keys` (line 64). -/
def x_keys : List String := ["y1", "y2", "y3", "y4", "y5", "y6", "y7", "y8", "y9"]

/-- Module global `csv_columns` (lines 66-68). -/
def csv_columns : List String :=
  ["timestamp", "x0", "x1", "x2", "x3", "x4", "x5", "x6", "x7", "x8",
   "y0", "y1", "y2", "y3", "y4", "y5", "y6", "y7", "y8", "y9",
   "microwave0", "microwave1", "PIR0", "PIR1", "PIR2", "PIR3",
   "pz0", "pz1", "pz2", "pz3"]

/-- Local `do_not_convert` of `recmsg` (line 406). -/
def do_not_convert : List String := ["timestamp", "origin", "piezoString"]

/-- One decoded inbound JSON message.  `payload` is the JSON object
(with `origin`, `timestamp`, sensor fields, ...); `piezo`, when present,
is the comma-split token list of the `piezoString` entry. -/
structure Msg where
  payload : List (String × MVal)
  piezo : Option (List MVal)
  deriving DecidableEq, Repr

/-- The mutable globals and shared structures driven by `recmsg`:
`allData`, the received-origin flags, `plot_list`, the rows written by
`write_to_csv` together with the `write_header` flag, and the shared
lists/dicts consumed by the plotting processes. -/
structure RState where
  allData : Dict
  xpiReceived : ℕ
  ypiReceived : ℕ
  plot_list : List Dict
  csv_rows : List Dict
  write_header : Bool
  list_x : List (List ℚ)
  list_y : List (List ℚ)
  timestamp_list : List String
  x_sensor_data_dict : List (String × List MVal)
  y_sensor_data_dict : List (String × List MVal)
  deriving DecidableEq, Repr

/-- The state at process start: everything empty, flags `0`, header pending. -/
def initState : RState := ⟨[], 0, 0, [], [], true, [], [], [], [], []⟩

/-- The conversion comprehension
`dict((k, round(float(v), 2)) for k, v in rmsg.items() if k not in do_not_convert)`
(lines 420 and 431): all-or-nothing, `none` when any retained value fails
`float()`. -/
def convEntries : List (String × MVal) → Option (List (String × ℚ))
  | [] => some []
  | (k, v) :: l =>
    if k ∈ do_not_convert then convEntries l
    else
      match asFloat v with
      | none => none
      | some q => (convEntries l).map (fun r => (k, round2 q) :: r)

/-- `allData.update(converted)`: fold the converted entries into the dict. -/
def updAll (d : Dict) (l : List (String × ℚ)) : Dict :=
  l.foldl (fun d0 kv => dput d0 kv.1 (MVal.num kv.2)) d

/-- One assignment `allData["pz<i>"] = float(pz_list[i])` (lines 415-418):
`IndexError` when the split has too few tokens, `ValueError` when the token
is not numeric.  Note the value is stored unrounded. -/
def pzStep (d : Dict) (toks : List MVal) (nm : String) (i : ℕ) : Except PyErr Dict :=
  match toks.get? i with
  | none => Except.error PyErr.indexError
  | some v =>
    match asFloat v with
    | none => Except.error PyErr.valueError
    | some q => Except.ok (dput d nm (MVal.num q))

/-- The four sequential piezo assignments; on failure the assignments made
so far stay in place. -/
def setPz (d : Dict) (toks : List MVal) : Dict × Option PyErr :=
  match pzStep d toks "pz0" 0 with
  | Except.error e => (d, some e)
  | Except.ok d0 =>
    match pzStep d0 toks "pz1" 1 with
    | Except.error e => (d0, some e)
    | Except.ok d1 =>
      match pzStep d1 toks "pz2" 2 with
      | Except.error e => (d1, some e)
      | Except.ok d2 =>
        match pzStep d2 toks "pz3" 3 with
        | Except.error e => (d2, some e)
        | Except.ok d3 => (d3, none)

/-- The `origin == "XPi"` branch of `recmsg` (lines 408-425): set the flag,
clear `allData` when `xpiReceived == 1 and ypiReceived == 0`, split and store
the piezo values, merge the converted payload, store the raw timestamp, drop
`piezoString`, reset the flag. -/
def processX (s : RState) (m : Msg) : RState × Option PyErr :=
  let s1 : RState := { s with xpiReceived := 1 }
  let s2 : RState :=
    if s1.xpiReceived = 1 ∧ s1.ypiReceived = 0 then { s1 with allData := [] } else s1
  match m.piezo with
  | none => (s2, some PyErr.keyError)
  | some toks =>
    match setPz s2.allData toks with
    | (d, some e) => ({ s2 with allData := d }, some e)
    | (d, none) =>
      match convEntries m.payload with
      | none => ({ s2 with allData := d }, some PyErr.valueError)
      | some kvs =>
        let d2 := updAll d kvs
        match dlookup m.payload "timestamp" with
        | none => ({ s2 with allData := d2 }, some PyErr.keyError)
        | some tv =>
          ({ s2 with
              allData := ddel (dput d2 "timestamp" tv) "piezoString",
              xpiReceived := 0 },
            none)

/-- `write_to_csv` (lines 377-391) abstracted to the row stream: the header
flag is consumed, the row is appended; `csv.DictWriter.writerow` raises
`ValueError` when the dict has a key outside `csv_columns`. -/
def write_to_csv (s : RState) (d : Dict) : RState × Option PyErr :=
  if d.all (fun p => csv_columns.contains p.1) then
    ({ s with csv_rows := s.csv_rows ++ [d], write_header := false }, none)
  else (s, some PyErr.valueError)

/-- `if len(allData) > 14: self.write_to_csv(allData)` (lines 435-436). -/
def csvStep (s : RState) : RState × Option PyErr :=
  if 14 < s.allData.length then write_to_csv s s.allData else (s, none)

/-- The `plot_list` maintenance (lines 438-444): append while below
capacity, then pop the head when the FIRST buffered sample has fewer than 15
fields; at capacity pop the head and append. -/
def pushPlot (pl : List Dict) (d : Dict) : List Dict :=
  if pl.length < 5 then
    let pl2 := pl ++ [d]
    if (pl2.headD []).length < 15 then pl2.drop 1 else pl2
  else pl.drop 1 ++ [d]

/-- `df.iloc[-1][k]` on `pd.DataFrame(plot_list)`: `KeyError` when no
buffered sample has the column, the last sample's value otherwise, with
`nan` when only the last sample lacks it. -/
def dfLast (pl : List Dict) (k : String) : Except PyErr MVal :=
  if pl.any (fun d => (dlookup d k).isSome) then
    Except.ok ((dlookup (pl.getLastD []) k).getD MVal.nan)
  else Except.error PyErr.keyError

/-- `df.iloc[-5:][k].tolist()` when the frame has 5 rows: the column across
all buffered samples, `nan` for rows lacking it, `KeyError` when no row has
it. -/
def dfCol (pl : List Dict) (k : String) : Except PyErr (List MVal) :=
  if pl.any (fun d => (dlookup d k).isSome) then
    Except.ok (pl.map (fun d => (dlookup d k).getD MVal.nan))
  else Except.error PyErr.keyError

/-- `ts.split()[1]` (lines 471 and 474): needs a string with at least two
whitespace-separated tokens (`AttributeError` on a non-string,
`IndexError` otherwise). -/
def tsSplit : MVal → Except PyErr String
  | MVal.str t =>
    match (t.splitOn " ").get? 1 with
    | some u => Except.ok u
    | none => Except.error PyErr.indexError
  | _ => Except.error PyErr.attributeError

/-- The 5-slot FIFO of `timestamp_list` (lines 470-474). -/
def push5 (l : List String) (t : String) : List String :=
  if l.length < 5 then l ++ [t] else l.drop 1 ++ [t]

/-- Publication of the classified positions into the shared lists
(lines 458-468): first time append the four lists, afterwards assign
indices 0 and 1 in place. -/
def setPositions (s : RState) (r : DPAcc) : RState × Option PyErr :=
  if s.list_x.length < 1 then
    ({ s with list_x := s.list_x ++ [r.gx, r.rx], list_y := s.list_y ++ [r.gy, r.ry] }, none)
  else
    match pySet s.list_x 0 r.gx with
    | Except.error e => (s, some e)
    | Except.ok lx0 =>
      match pySet lx0 1 r.rx with
      | Except.error e => ({ s with list_x := lx0 }, some e)
      | Except.ok lx1 =>
        match pySet s.list_y 0 r.gy with
        | Except.error e => ({ s with list_x := lx1 }, some e)
        | Except.ok ly0 =>
          match pySet ly0 1 r.ry with
          | Except.error e => ({ s with list_x := lx1, list_y := ly0 }, some e)
          | Except.ok ly1 => ({ s with list_x := lx1, list_y := ly1 }, none)

/-- The per-sensor series assignments (lines 477-480), sequential with
partial effect on error. -/
def setCols (pl : List Dict) :
    List String → List (String × List MVal) → List (String × List MVal) × Option PyErr
  | [], d0 => (d0, none)
  | k :: ks, d0 =>
    match dfCol pl k with
    | Except.error e => (d0, some e)
    | Except.ok col => setCols pl ks (dput d0 k col)

/-- `if len(df.index) == 5:` republish the 17 per-sensor 5-element series
(lines 476-480). -/
def sensorStep (s : RState) : RState × Option PyErr :=
  if s.plot_list.length = 5 then
    match setCols s.plot_list x_keys s.x_sensor_data_dict with
    | (d, some e) => ({ s with x_sensor_data_dict := d }, some e)
    | (d, none) =>
      match setCols s.plot_list y_keys s.y_sensor_data_dict with
      | (d2, r) => ({ s with x_sensor_data_dict := d, y_sensor_data_dict := d2 }, r)
  else (s, none)

/-- The presentation tail of the `YPi` branch (lines 446-480): when the
frame is non-empty, extract the two axis series and the timestamp of the
latest sample, classify, publish positions, push the clock time, and at
exactly 5 buffered samples republish the per-sensor series. -/
def presentStep (s : RState) : RState × Option PyErr :=
  if s.plot_list = [] then (s, none)
  else
    match x_keys.mapM (fun k => dfLast s.plot_list k) with
    | Except.error e => (s, some e)
    | Except.ok x_new =>
      match y_keys.mapM (fun k => dfLast s.plot_list k) with
      | Except.error e => (s, some e)
      | Except.ok y_new =>
        match dfLast s.plot_list "timestamp" with
        | Except.error e => (s, some e)
        | Except.ok ts =>
          match decide_pos y_new x_new with
          | Except.error e => (s, some e)
          | Except.ok r =>
            match setPositions s r with
            | (s1, some e) => (s1, some e)
            | (s1, none) =>
              match tsSplit ts with
              | Except.error e => (s1, some e)
              | Except.ok t =>
                sensorStep { s1 with timestamp_list := push5 s1.timestamp_list t }

/-- The tail of the `YPi` branch after the merge (lines 435-480). -/
def continueY (s : RState) : RState × Option PyErr :=
  match csvStep s with
  | (s1, some e) => (s1, some e)
  | (s1, none) =>
    presentStep { s1 with plot_list := pushPlot s1.plot_list s1.allData }

/-- The `origin == "YPi"` branch of `recmsg` (lines 427-480): set the flag,
pop `timestampy`, merge the converted payload (the conversion dict is built
before the update, so a failure leaves `allData` unchanged but the flag
set), reset the flag, then persist/present. -/
def processY (s : RState) (m : Msg) : RState × Option PyErr :=
  let s1 : RState := { s with ypiReceived := 1 }
  match convEntries (ddel m.payload "timestampy") with
  | none => (s1, some PyErr.valueError)
  | some kvs =>
    continueY { s1 with allData := updAll s1.allData kvs, ypiReceived := 0 }

/-- `RunMqtt.recmsg` (lines 393-480) on an already-JSON-decoded message:
dispatch on `rmsg['origin']` (`KeyError` when absent, no-op on any other
origin). -/
def recmsg (s : RState) (m : Msg) : RState × Option PyErr :=
  match dlookup m.payload "origin" with
  | none => (s, some PyErr.keyError)
  | some ov =>
    if ov = MVal.str "XPi" then processX s m
    else if ov = MVal.str "YPi" then processY s m
    else (s, none)

/-- A rational is a two-decimal-place value (what `round(·, 2)` produces). -/
def twoDecimal (q : ℚ) : Prop := (q * 100).den = 1

instance (q : ℚ) : Decidable (twoDecimal q) := by
  unfold twoDecimal; infer_instance

/-! ### Concrete inputs used by counterexamples and witnesses -/

/-- Scenario A y-axis series: only index 0 reads below 250. -/
def aA : List ℚ := [100, 260, 260, 260, 260, 260, 260, 260, 260]

/-- Scenario A x-axis series: every entry at or above 180. -/
def bA : List ℚ := [200, 200, 200, 200, 200, 200, 200, 200]

/-- A y-axis series whose indices 0 and 1 both read below 250. -/
def a7 : List ℚ := [100, 100, 260, 260, 260, 260, 260, 260, 260]

/-- An x-axis series with every entry at or above 180. -/
def b7 : List ℚ := [260, 260, 260, 260, 260, 260, 260, 260]

/-- A full RigX report: timestamp `01:00:00`, all nine x-sensors at 260. -/
def cmx : Msg :=
  ⟨[("origin", MVal.str "XPi"), ("timestamp", MVal.str "d 01:00:00"),
    ("x0", MVal.num 260), ("x1", MVal.num 260), ("x2", MVal.num 260),
    ("x3", MVal.num 260), ("x4", MVal.num 260), ("x5", MVal.num 260),
    ("x6", MVal.num 260), ("x7", MVal.num 260), ("x8", MVal.num 260)],
   some [MVal.num 1, MVal.num 1, MVal.num 1, MVal.num 1]⟩

/-- A full RigY report with a different timestamp, `02:00:00`. -/
def cmy : Msg :=
  ⟨[("origin", MVal.str "YPi"), ("timestamp", MVal.str "d 02:00:00"),
    ("y1", MVal.num 260), ("y2", MVal.num 260), ("y3", MVal.num 260),
    ("y4", MVal.num 260), ("y5", MVal.num 260), ("y6", MVal.num 260),
    ("y7", MVal.num 260), ("y8", MVal.num 260), ("y9", MVal.num 260)], none⟩

/-- A RigX report carrying an `x0` reading. -/
def mx1 : Msg :=
  ⟨[("origin", MVal.str "XPi"), ("timestamp", MVal.str "d 01:00:00"),
    ("x0", MVal.num 7)],
   some [MVal.num 1, MVal.num 1, MVal.num 1, MVal.num 1]⟩

/-- A second RigX report, with different fields, no completion in between. -/
def mx2 : Msg :=
  ⟨[("origin", MVal.str "XPi"), ("timestamp", MVal.str "d 01:00:05"),
    ("microwave0", MVal.num 3)],
   some [MVal.num 2, MVal.num 2, MVal.num 2, MVal.num 2]⟩

/-- A full RigX report whose `x6` sensor detects at 100. -/
def mx4 : Msg :=
  ⟨[("origin", MVal.str "XPi"), ("timestamp", MVal.str "d 01:00:00"),
    ("x0", MVal.num 260), ("x1", MVal.num 260), ("x2", MVal.num 260),
    ("x3", MVal.num 260), ("x4", MVal.num 260), ("x5", MVal.num 260),
    ("x6", MVal.num 100), ("x7", MVal.num 260), ("x8", MVal.num 260)],
   some [MVal.num 1, MVal.num 1, MVal.num 1, MVal.num 1]⟩

/-- A full RigY report with all nine y-sensors at 260 and no timestamp. -/
def my4 : Msg :=
  ⟨[("origin", MVal.str "YPi"),
    ("y1", MVal.num 260), ("y2", MVal.num 260), ("y3", MVal.num 260),
    ("y4", MVal.num 260), ("y5", MVal.num 260), ("y6", MVal.num 260),
    ("y7", MVal.num 260), ("y8", MVal.num 260), ("y9", MVal.num 260)], none⟩

/-- A state with a non-empty in-progress sample. -/
def s8 : RState := { initState with allData := [("y1", MVal.num 5)] }

/-- A malformed RigX report: the `piezoString` field is missing. -/
def m8 : Msg :=
  ⟨[("origin", MVal.str "XPi"), ("timestamp", MVal.str "d 01:00:00")], none⟩

/-- A RigX report whose first piezo token is `1.234` (three decimals). -/
def mx9 : Msg :=
  ⟨[("origin", MVal.str "XPi"), ("timestamp", MVal.str "d 01:00:00"),
    ("x0", MVal.num 1)],
   some [MVal.num (1234 / 1000), MVal.num 1, MVal.num 1, MVal.num 1]⟩

/-- A RigY report with a single field disjoint from `mx9`. -/
def my9 : Msg := ⟨[("origin", MVal.str "YPi"), ("y1", MVal.num 2)], none⟩

/-- A complete 23-field fused sample (the result of merging `mx4` and
`my4`). -/
def bigD : Dict :=
  [("pz0", MVal.num 1), ("pz1", MVal.num 1), ("pz2", MVal.num 1), ("pz3", MVal.num 1),
   ("x0", MVal.num 260), ("x1", MVal.num 260), ("x2", MVal.num 260), ("x3", MVal.num 260),
   ("x4", MVal.num 260), ("x5", MVal.num 260), ("x6", MVal.num 100), ("x7", MVal.num 260),
   ("x8", MVal.num 260), ("timestamp", MVal.str "d 01:00:00"),
   ("y1", MVal.num 260), ("y2", MVal.num 260), ("y3", MVal.num 260), ("y4", MVal.num 260),
   ("y5", MVal.num 260), ("y6", MVal.num 260), ("y7", MVal.num 260), ("y8", MVal.num 260),
   ("y9", MVal.num 260)]

/-- A state whose history window holds the single complete sample `bigD`. -/
def oneSample : RState := { initState with plot_list := [bigD] }

/-- A RigY report carrying only five fields. -/
def m6 : Msg :=
  ⟨[("origin", MVal.str "YPi"), ("y1", MVal.num 100), ("y2", MVal.num 100),
    ("y3", MVal.num 100), ("y4", MVal.num 100), ("y5", MVal.num 100)], none⟩

/-- The five-field sample `m6` merges into an empty `allData`. -/
def small6 : Dict :=
  [("y1", MVal.num 100), ("y2", MVal.num 100), ("y3", MVal.num 100),
   ("y4", MVal.num 100), ("y5", MVal.num 100)]

/-- A complete (15-field) sample tagged with `q`, for FIFO scenarios. -/
def d15 (q : ℚ) : Dict :=
  [("f0", MVal.num q), ("f1", MVal.num q), ("f2", MVal.num q), ("f3", MVal.num q),
   ("f4", MVal.num q), ("f5", MVal.num q), ("f6", MVal.num q), ("f7", MVal.num q),
   ("f8", MVal.num q), ("f9", MVal.num q), ("f10", MVal.num q), ("f11", MVal.num q),
   ("f12", MVal.num q), ("f13", MVal.num q), ("f14", MVal.num q)]

/-- An all-zero 9-entry y-axis series. -/
def aW : List ℚ := [0, 0, 0, 0, 0, 0, 0, 0, 0]

/-- An all-zero 8-entry x-axis series. -/
def bW : List ℚ := [0, 0, 0, 0, 0, 0, 0, 0]

/-- The four canonical piezo field names. -/
def pzNames : List String := ["pz0", "pz1", "pz2", "pz3"]

/-- The `x_keys` column values of the latest sample of `oneSample`. -/
def xnW : List MVal :=
  [MVal.num 260, MVal.num 260, MVal.num 260, MVal.num 260, MVal.num 260,
   MVal.num 260, MVal.num 260, MVal.num 260, MVal.num 260]

/-- The `y_keys` column values of the latest sample of `oneSample`. -/
def ynW : List MVal :=
  [MVal.num 260, MVal.num 100, MVal.num 260, MVal.num 260, MVal.num 260,
   MVal.num 260, MVal.num 260, MVal.num 260]

/-- The converted entries of `m6`. -/
def small6kvs : List (String × ℚ) :=
  [("y1", 100), ("y2", 100), ("y3", 100), ("y4", 100), ("y5", 100)]

/-! ### Counterexamples -/

/-- C1: the claim fails on Scenario A.  The skip marker `ignore` is
initialized to `0`, so index 0 — the only reading below 250 — is skipped on
the first iteration and the classifier returns zero Seated and zero
Standing positions, not one Seated position at `(100, 250/9)`. -/
theorem C1_counterexample :
    decide_posQ aA bA = Except.ok ⟨[], [], [], []⟩ ∧
    decide_posQ aA bA ≠ Except.ok ⟨[100], [250 / 9], [], []⟩ := by with_unfolding_all decide

/-- C2: an X-report with timestamp `01:00:00` followed by a completing
Y-report with timestamp `02:00:00` leaves the completed (persisted) sample
with the X timestamp: the Y-rig timestamp does not win. -/
theorem C2_counterexample :
    14 < (recmsg (recmsg initState cmx).1 cmy).1.allData.length ∧
    (recmsg (recmsg initState cmx).1 cmy).1.csv_rows.length = 1 ∧
    dlookup (recmsg (recmsg initState cmx).1 cmy).1.allData "timestamp"
      = some (MVal.str "d 01:00:00") ∧
    dlookup cmy.payload "timestamp" = some (MVal.str "d 02:00:00") ∧
    MVal.str "d 01:00:00" ≠ MVal.str "d 02:00:00" := by with_unfolding_all decide

/-- C3: two consecutive RigX reports with no completion in between: the
second one is not the first since the last completion, yet it clears the
accumulated `x0` field contributed by the first. -/
theorem C3_counterexample :
    dlookup (recmsg initState mx1).1.allData "x0" = some (MVal.num 7) ∧
    (recmsg initState mx1).1.csv_rows = [] ∧
    (recmsg (recmsg initState mx1).1 mx2).1.csv_rows = [] ∧
    dlookup (recmsg (recmsg initState mx1).1 mx2).1.allData "x0" = none := by with_unfolding_all decide

/-- C4: after a single X/Y pair the history window holds one sample — far
below the full capacity of 5 — yet a classified position is already
published to the shared presentation list. -/
theorem C4_counterexample :
    (recmsg (recmsg initState mx4).1 my4).1.plot_list.length = 1 ∧
    (recmsg (recmsg initState mx4).1 my4).1.list_x = [[100], []] := by with_unfolding_all decide

/-- C6: a Y-merge producing a 5-field sample (at most 14 populated fields)
is not persisted, but it IS retained in the presentation buffer because the
buffer's oldest entry has at least 15 fields. -/
theorem C6_counterexample :
    (recmsg oneSample m6).1.plot_list = [bigD, small6] ∧
    small6.length ≤ 14 ∧
    (recmsg oneSample m6).1.csv_rows = [] := by with_unfolding_all decide

/-- C7: indices 0 and 1 both read below 250, yet index 0 contributes no
position (index 1 does): the claim that index `i` of such a pair always
contributes is false. -/
theorem C7_counterexample :
    decide_posQ a7 b7 = Except.ok ⟨[100], [500 / 9], [], []⟩ ∧
    a7.get? 0 = some 100 ∧ a7.get? 1 = some 100 ∧ (100 : ℚ) < 250 ∧
    ¬ hits ⟨[100], [500 / 9], [], []⟩ 0 := by with_unfolding_all decide

/-- C8: a RigX report missing `piezoString` raises an uncaught `KeyError`
AFTER the in-progress sample has been cleared: the error is not swallowed
and the sample is not left unchanged. -/
theorem C8_counterexample :
    recmsg s8 m8 = ({ s8 with allData := [], xpiReceived := 1 }, some PyErr.keyError) ∧
    s8.allData ≠ [] := by with_unfolding_all decide

/-- C9: after an X-report (piezo token `1.234`) and a disjoint Y-report,
the fused sample stores `pz0 = 1.234` unrounded: not a two-decimal value,
and not equal to its 2-decimal rounding. -/
theorem C9_counterexample :
    dlookup (recmsg (recmsg initState mx9).1 my9).1.allData "pz0"
      = some (MVal.num (1234 / 1000)) ∧
    round2 (1234 / 1000) ≠ (1234 / 1000 : ℚ) ∧
    ¬ twoDecimal (1234 / 1000 : ℚ) := by with_unfolding_all decide

/-- C1 (amended): `ignore` starts at `0`, so index 0 is skipped on the
first iteration even though its reading 100 is below 250; on Scenario A the
classifier therefore returns zero Seated and zero Standing positions. -/
theorem C1_amended :
    decide_posQ aA bA = Except.ok ⟨[], [], [], []⟩ ∧
    aA.get? 0 = some 100 ∧ (100 : ℚ) < 250 := by with_unfolding_all decide

/-! ### Dictionary lemmas -/

theorem dlookup_dput_self {α : Type} (d : List (String × α)) (k : String) (v : α) :
    dlookup (dput d k v) k = some v := by
  induction d with
  | nil => simp [dput, dlookup]
  | cons p d ih =>
    obtain ⟨k1, v1⟩ := p
    by_cases h : k1 = k
    · simp [dput, h, dlookup]
    · simp [dput, h, dlookup, ih]

theorem dlookup_dput_ne {α : Type} (d : List (String × α)) (k0 k1 : String) (v : α)
    (h : k0 ≠ k1) : dlookup (dput d k0 v) k1 = dlookup d k1 := by
  induction d with
  | nil => simp [dput, dlookup, h]
  | cons p d ih =>
    obtain ⟨k2, v2⟩ := p
    by_cases h2 : k2 = k0
    · simp [dput, h2, dlookup, h]
    · by_cases h3 : k2 = k1 <;> simp [dput, h2, dlookup, h3, ih, Ne.symm h]

theorem dlookup_ddel_ne {α : Type} (d : List (String × α)) (k0 k1 : String)
    (h : k0 ≠ k1) : dlookup (ddel d k0) k1 = dlookup d k1 := by
  induction d with
  | nil => simp [ddel]
  | cons p d ih =>
    obtain ⟨k2, v2⟩ := p
    by_cases h2 : k2 = k0
    · subst h2; simp [ddel, dlookup, h]
    · by_cases h3 : k2 = k1 <;> simp [ddel, h2, dlookup, h3, ih, Ne.symm h]

theorem dlookup_updAll_ne (d : Dict) (l : List (String × ℚ)) (k1 : String)
    (h : ∀ p ∈ l, p.1 ≠ k1) : dlookup (updAll d l) k1 = dlookup d k1 := by
  induction l generalizing d with
  | nil => rfl
  | cons p l ih =>
    obtain ⟨k, q⟩ := p
    have hk : k ≠ k1 := h (k, q) (List.mem_cons_self _ _)
    have hrest : ∀ p ∈ l, p.1 ≠ k1 := fun p hp => h p (List.mem_cons_of_mem _ hp)
    show dlookup (updAll (dput d k (MVal.num q)) l) k1 = dlookup d k1
    rw [ih (dput d k (MVal.num q)) hrest, dlookup_dput_ne d k k1 _ hk]

theorem convEntries_keys (l : List (String × MVal)) (kvs : List (String × ℚ))
    (h : convEntries l = some kvs) : ∀ p ∈ kvs, p.1 ∉ do_not_convert := by
  induction l generalizing kvs with
  | nil =>
    simp only [convEntries, Option.some.injEq] at h
    subst h; intro p hp; cases hp
  | cons e l ih =>
    obtain ⟨k, v⟩ := e
    by_cases hk : k ∈ do_not_convert
    · rw [convEntries, if_pos hk] at h
      exact ih kvs h
    · rw [convEntries, if_neg hk] at h
      cases hv : asFloat v with
      | none => rw [hv] at h; cases h
      | some q =>
        rw [hv] at h
        cases hrec : convEntries l with
        | none => rw [hrec] at h; cases h
        | some kvs0 =>
          rw [hrec] at h
          have h2 : (k, round2 q) :: kvs0 = kvs := by simpa using h
          subst h2
          intro p hp
          rcases List.mem_cons.mp hp with rfl | hp0
          · exact hk
          · exact ih kvs0 hrec p hp0

theorem convEntries_ne_timestamp (l : List (String × MVal)) (kvs : List (String × ℚ))
    (h : convEntries l = some kvs) : ∀ p ∈ kvs, p.1 ≠ "timestamp" := by
  intro p hp heq
  exact convEntries_keys l kvs h p hp (by rw [heq]; simp [do_not_convert])

/-! ### Preservation lemmas for the presentation tail -/

theorem sensorStep_pres (s : RState) :
    (sensorStep s).1.allData = s.allData ∧
    (sensorStep s).1.csv_rows = s.csv_rows ∧
    (sensorStep s).1.plot_list = s.plot_list ∧
    (sensorStep s).1.list_x = s.list_x := by
  unfold sensorStep
  repeat' split
  all_goals simp

theorem setPositions_pres (s : RState) (r : DPAcc) :
    (setPositions s r).1.allData = s.allData ∧
    (setPositions s r).1.csv_rows = s.csv_rows ∧
    (setPositions s r).1.plot_list = s.plot_list ∧
    (setPositions s r).1.x_sensor_data_dict = s.x_sensor_data_dict ∧
    (setPositions s r).1.y_sensor_data_dict = s.y_sensor_data_dict ∧
    (setPositions s r).1.timestamp_list = s.timestamp_list := by
  unfold setPositions
  repeat' split
  all_goals simp

theorem setPositions_eq_pres (s : RState) (r : DPAcc) (s1 : RState) (e : Option PyErr)
    (h : setPositions s r = (s1, e)) :
    s1.allData = s.allData ∧ s1.csv_rows = s.csv_rows ∧ s1.plot_list = s.plot_list := by
  have hp := setPositions_pres s r
  rw [h] at hp
  exact ⟨hp.1, hp.2.1, hp.2.2.1⟩

theorem presentStep_pres (s : RState) :
    (presentStep s).1.allData = s.allData ∧
    (presentStep s).1.csv_rows = s.csv_rows ∧
    (presentStep s).1.plot_list = s.plot_list := by
  unfold presentStep
  split
  · simp
  split
  · simp
  split
  · simp
  split
  · simp
  split
  · simp
  split
  · rename_i s1 e hset
    obtain ⟨h1, h2, h3⟩ := setPositions_eq_pres _ _ _ _ hset
    simp [h1, h2, h3]
  · rename_i s1 hset
    obtain ⟨h1, h2, h3⟩ := setPositions_eq_pres _ _ _ _ hset
    split
    · simp [h1, h2, h3]
    · rename_i t hts
      obtain ⟨g1, g2, g3, _⟩ :=
        sensorStep_pres { s1 with timestamp_list := push5 s1.timestamp_list t }
      simp only [g1, g2, g3]
      simp [h1, h2, h3]

theorem write_to_csv_pres (s : RState) (d : Dict) :
    (write_to_csv s d).1.allData = s.allData ∧
    (write_to_csv s d).1.plot_list = s.plot_list := by
  unfold write_to_csv
  split <;> simp

theorem csvStep_pres (s : RState) :
    (csvStep s).1.allData = s.allData ∧
    (csvStep s).1.plot_list = s.plot_list := by
  unfold csvStep
  split
  · exact write_to_csv_pres s s.allData
  · exact ⟨rfl, rfl⟩

theorem continueY_allData (s : RState) : (continueY s).1.allData = s.allData := by
  unfold continueY
  split
  all_goals rename_i heq
  · have h1 := csvStep_pres s
    rename_i s1 e
    rw [heq] at h1
    exact h1.1
  · have h1 := csvStep_pres s
    rename_i s1
    rw [heq] at h1
    have h2 := presentStep_pres { s1 with plot_list := pushPlot s1.plot_list s1.allData }
    simp only [h2.1]
    exact h1.1

/-- C2 (amended): a RigY report never changes the `timestamp` field of the
in-progress sample — the conversion comprehension excludes `timestamp` and
`timestampy` is popped — so on completion the sample keeps the timestamp
set by the most recent RigX report; the RigY timestamp never wins. -/
theorem C2_amended (s : RState) (m : Msg)
    (h : dlookup m.payload "origin" = some (MVal.str "YPi")) :
    dlookup (recmsg s m).1.allData "timestamp" = dlookup s.allData "timestamp" := by
  unfold recmsg
  rw [h]
  show dlookup (processY s m).1.allData "timestamp" = dlookup s.allData "timestamp"
  unfold processY
  cases hconv : convEntries (ddel m.payload "timestampy") with
  | none => rfl
  | some kvs =>
    dsimp only
    rw [continueY_allData]
    exact dlookup_updAll_ne s.allData kvs "timestamp" (convEntries_ne_timestamp _ _ hconv)

/-- C2 witness: concrete instance of `C2_amended` on the RigY report `cmy`. -/
theorem C2_witness :
    dlookup (recmsg initState cmy).1.allData "timestamp"
      = dlookup initState.allData "timestamp" :=
  C2_amended initState cmy (by with_unfolding_all decide)

/-- C3 (amended): in sequential execution `ypiReceived` is `0` whenever a
RigX report arrives, so the clear-condition `xpiReceived == 1 and
ypiReceived == 0` always holds: EVERY RigX report clears the accumulated
values, and the result of processing it does not depend on the previously
accumulated sample at all. -/
theorem C3_amended (s : RState) (m : Msg) (h0 : s.ypiReceived = 0)
    (h : dlookup m.payload "origin" = some (MVal.str "XPi")) :
    recmsg s m = recmsg { s with allData := [] } m := by
  unfold recmsg
  rw [h]
  show processX s m = processX { s with allData := [] } m
  unfold processX
  dsimp only
  rw [if_pos ⟨rfl, h0⟩]
  rw [if_pos (show (1 : ℕ) = 1 ∧ s.ypiReceived = 0 from ⟨rfl, h0⟩)]

/-- C3 witness: concrete instance of `C3_amended` on a second RigX report
arriving with data already accumulated. -/
theorem C3_witness :
    recmsg s8 mx2 = recmsg { s8 with allData := [] } mx2 :=
  C3_amended s8 mx2 rfl (by with_unfolding_all decide)

/-- C8 (amended): a RigX report missing `piezoString` raises an uncaught
`KeyError`, and by then the in-progress sample has already been cleared
(and the `xpiReceived` flag left set): the error is not isolated and the
sample is not left unchanged. -/
theorem C8_amended (s : RState) (m : Msg) (h0 : s.ypiReceived = 0)
    (h : dlookup m.payload "origin" = some (MVal.str "XPi")) (hp : m.piezo = none) :
    recmsg s m = ({ s with allData := [], xpiReceived := 1 }, some PyErr.keyError) := by
  unfold recmsg
  rw [h]
  show processX s m = _
  unfold processX
  dsimp only
  rw [if_pos ⟨rfl, h0⟩, hp]

/-- C8 witness: concrete instance of `C8_amended` on the malformed report
`m8` hitting the state `s8`. -/
theorem C8_witness :
    recmsg s8 m8 = ({ s8 with allData := [], xpiReceived := 1 }, some PyErr.keyError) :=
  C8_amended s8 m8 rfl (by with_unfolding_all decide) rfl

/-! ### FIFO behaviour of the history window (C5) -/

theorem pushPlot_complete (pl : List Dict) (d : Dict) (h5 : pl.length < 5)
    (hpl : ∀ e ∈ pl, 15 ≤ e.length) (hd : 15 ≤ d.length) :
    pushPlot pl d = pl ++ [d] := by
  unfold pushPlot
  rw [if_pos h5]
  cases pl with
  | nil => simp; omega
  | cons p ps =>
    have hp : 15 ≤ p.length := hpl p (List.mem_cons_self _ _)
    simp only [List.cons_append, List.headD_cons]
    rw [if_neg (by omega)]

theorem pushPlot_foldl (l : List Dict) : ∀ (pl : List Dict),
    pl.length ≤ 5 → (∀ d ∈ pl, 15 ≤ d.length) → (∀ d ∈ l, 15 ≤ d.length) →
    l.foldl pushPlot pl = (pl ++ l).drop (pl.length + l.length - 5) := by
  induction l with
  | nil =>
    intro pl h5 _ _
    simp [Nat.sub_eq_zero_of_le h5]
  | cons d l ih =>
    intro pl h5 hpl hl
    have hd : 15 ≤ d.length := hl d (List.mem_cons_self _ _)
    have hl2 : ∀ e ∈ l, 15 ≤ e.length := fun e he => hl e (List.mem_cons_of_mem _ he)
    show List.foldl pushPlot (pushPlot pl d) l = _
    by_cases hlt : pl.length < 5
    · rw [pushPlot_complete pl d hlt hpl hd]
      rw [ih (pl ++ [d]) (by simp; omega)
          (by intro e he; rcases List.mem_append.mp he with he0 | he1
              · exact hpl e he0
              · rw [List.mem_singleton.mp he1]; exact hd)
          hl2]
      have harr : (pl ++ [d]).length + l.length - 5 = pl.length + (d :: l).length - 5 := by
        simp; omega
      rw [harr, List.append_assoc]
      rfl
    · have h5e : pl.length = 5 := le_antisymm h5 (not_lt.mp hlt)
      have hpp : pushPlot pl d = pl.drop 1 ++ [d] := by
        unfold pushPlot
        rw [if_neg hlt]
      rw [hpp]
      rw [ih (pl.drop 1 ++ [d]) (by simp [h5e])
          (by intro e he; rcases List.mem_append.mp he with he0 | he1
              · exact hpl e (List.mem_of_mem_drop he0)
              · rw [List.mem_singleton.mp he1]; exact hd)
          hl2]
      obtain ⟨p, ps, rfl⟩ : ∃ p ps, pl = p :: ps := by
        cases pl with
        | nil => simp at h5e
        | cons p ps => exact ⟨p, ps, rfl⟩
      have hlen : (p :: ps).drop 1 = ps := rfl
      rw [hlen]
      have hlen2 : ps.length = 4 := by simp at h5e; omega
      have hL : ((ps ++ [d]) ++ l).drop ((ps ++ [d]).length + l.length - 5)
          = (ps ++ (d :: l)).drop (ps.length + 1 + l.length - 5) := by
        have hc : (ps ++ [d]).length = ps.length + 1 := by simp
        rw [hc, List.append_assoc]
        rfl
      rw [hL]
      have hc1 : ps.length + 1 + l.length - 5 = l.length := by omega
      have hc2 : (p :: ps).length + (d :: l).length - 5 = l.length + 1 := by
        simp only [List.length_cons]
        omega
      rw [hc1, hc2, List.cons_append, List.drop_succ_cons]

/-- C5: for any sequence of pushes of complete (at-least-15-field) fused
samples into a well-formed history window, once more than 5 samples have
been pushed the window holds exactly the 5 most recently pushed samples in
arrival order (strict FIFO eviction of the oldest). -/
theorem C5_fifo (pl l : List Dict) (h5 : pl.length ≤ 5)
    (hpl : ∀ d ∈ pl, 15 ≤ d.length) (hl : ∀ d ∈ l, 15 ≤ d.length)
    (hn : 5 < l.length) :
    l.foldl pushPlot pl = l.drop (l.length - 5) := by
  rw [pushPlot_foldl l pl h5 hpl hl]
  have harr : pl.length + l.length - 5 = pl.length + (l.length - 5) := by omega
  rw [harr, List.drop_append]

/-- C5 witness (Scenario D): pushing 7 complete samples into an empty
window leaves exactly samples 3 through 7, in order. -/
theorem C5_fifo_witness :
    [d15 1, d15 2, d15 3, d15 4, d15 5, d15 6, d15 7].foldl pushPlot []
      = [d15 3, d15 4, d15 5, d15 6, d15 7] := by
  have h := C5_fifo [] [d15 1, d15 2, d15 3, d15 4, d15 5, d15 6, d15 7]
    (by decide) (by decide) (by decide) (by decide)
  simpa using h

/-! ### Classifier index safety (C10) -/

theorem pyGet_ok {α : Type} (l : List α) (i : ℤ) (h1 : -(l.length : ℤ) ≤ i)
    (h2 : i < l.length) : ∃ v ∈ l, pyGet l i = Except.ok v := by
  unfold pyGet
  by_cases hneg : i < 0
  · have hc : 0 ≤ i + (l.length : ℤ) ∧ i + (l.length : ℤ) < (l.length : ℤ) := by omega
    rw [if_pos hneg, if_pos hc]
    have hlt : (i + (l.length : ℤ)).toNat < l.length := by omega
    rw [List.get?_eq_get hlt]
    exact ⟨l.get ⟨_, hlt⟩, List.get_mem _ _ hlt, rfl⟩
  · have hge : (0 : ℤ) ≤ i := by omega
    have hc : (0 : ℤ) ≤ i ∧ i < (l.length : ℤ) := ⟨hge, h2⟩
    rw [if_neg hneg, if_pos hc]
    have hlt : i.toNat < l.length := by omega
    rw [List.get?_eq_get hlt]
    exact ⟨l.get ⟨_, hlt⟩, List.get_mem _ _ hlt, rfl⟩

theorem ratFloor_eq_floor (q : ℚ) : Rat.floor q = ⌊q⌋ :=
  (Rat.floor_def' q).trans Rat.floor_def.symm

theorem pyInt_bounds (q : ℚ) (h0 : 0 ≤ q) (h250 : q < 250) :
    0 ≤ pyInt (q / 28) ∧ pyInt (q / 28) ≤ 8 := by
  have hq : (0 : ℚ) ≤ q / 28 := by positivity
  unfold pyInt
  rw [if_neg (not_lt.mpr hq), ratFloor_eq_floor]
  constructor
  · exact Int.floor_nonneg.mpr hq
  · have h9 : ⌊q / 28⌋ < 9 := by
      rw [Int.floor_lt]
      rw [div_lt_iff₀ (by norm_num : (0 : ℚ) < 28)]
      push_cast
      linarith
    omega

theorem dpStep_total (a b : List ℚ) (hb : b.length = 8) (hpos : ∀ r ∈ a, 0 ≤ r)
    (i ig : ℕ) (acc : DPAcc) (hi : i < a.length) :
    ∃ p, dpStep (a.map MVal.num) (b.map MVal.num) i ig acc = Except.ok p := by
  unfold dpStep
  by_cases hig : ig = i
  · rw [if_pos hig]; exact ⟨_, rfl⟩
  · rw [if_neg hig]
    have hget : (a.map MVal.num).get? i = some (MVal.num (a.get ⟨i, hi⟩)) := by
      rw [List.get?_map, List.get?_eq_get hi]
      rfl
    rw [hget]
    by_cases h250 : a.get ⟨i, hi⟩ < 250
    · have h0 : 0 ≤ a.get ⟨i, hi⟩ := hpos _ (List.get_mem a i hi)
      obtain ⟨hxp0, hxp8⟩ := pyInt_bounds _ h0 h250
      dsimp only
      rw [if_pos h250]
      obtain ⟨v1, hv1mem, hv1⟩ := pyGet_ok (b.map MVal.num) (pyInt (a.get ⟨i, hi⟩ / 28) - 1)
        (by rw [List.length_map, hb]; omega) (by rw [List.length_map, hb]; omega)
      obtain ⟨q1, _, rfl⟩ := List.mem_map.mp hv1mem
      rw [hv1]
      dsimp only
      by_cases hq1 : q1 < 180
      · rw [show ltc (MVal.num q1) 180 = Except.ok true by simp [ltc, hq1]]
        exact ⟨_, rfl⟩
      · rw [show ltc (MVal.num q1) 180 = Except.ok false by simp [ltc, hq1]]
        obtain ⟨v2, hv2mem, hv2⟩ := pyGet_ok (b.map MVal.num)
          (pyInt (a.get ⟨i, hi⟩ / 28) - 1 - 1)
          (by rw [List.length_map, hb]; omega) (by rw [List.length_map, hb]; omega)
        obtain ⟨q2, _, rfl⟩ := List.mem_map.mp hv2mem
        rw [hv2]
        dsimp only
        by_cases hq2 : q2 < 180
        · rw [show ltc (MVal.num q2) 180 = Except.ok true by simp [ltc, hq2]]
          exact ⟨_, rfl⟩
        · rw [show ltc (MVal.num q2) 180 = Except.ok false by simp [ltc, hq2]]
          exact ⟨_, rfl⟩
    · dsimp only
      rw [if_neg h250]
      exact ⟨_, rfl⟩

theorem dpGo_ok (a b : List ℚ) (hb : b.length = 8) (hpos : ∀ r ∈ a, 0 ≤ r) :
    ∀ (is : List ℕ) (ignore : ℕ) (acc : DPAcc), (∀ i ∈ is, i < a.length) →
      ∃ r, dpGo (a.map MVal.num) (b.map MVal.num) is ignore acc = Except.ok r := by
  intro is
  induction is with
  | nil => intro ignore acc _; exact ⟨acc, rfl⟩
  | cons i is ih =>
    intro ignore acc hmem
    have hi : i < a.length := hmem i (List.mem_cons_self _ _)
    have hrest : ∀ j ∈ is, j < a.length := fun j hj => hmem j (List.mem_cons_of_mem _ hj)
    obtain ⟨⟨ig2, acc2⟩, hstep⟩ := dpStep_total a b hb hpos i ignore acc hi
    rw [dpGo, hstep]
    exact ih ig2 acc2 hrest

/-- C10: on a 9-entry y-axis series of non-negative readings and an 8-entry
x-axis series, `decide_pos` terminates without an index error: every valid
reading below 250 yields a bucket in 0..8, so the two auxiliary lookups use
indices in -2..7, the negative ones resolving by Python wraparound. -/
theorem C10_safe (a b : List ℚ) (_ha : a.length = 9) (hb : b.length = 8)
    (hpos : ∀ r ∈ a, 0 ≤ r) : exOk (decide_posQ a b) = true := by
  unfold decide_posQ decide_pos
  obtain ⟨r, hr⟩ := dpGo_ok a b hb hpos (List.range (a.map MVal.num).length) 0
    ⟨[], [], [], []⟩
    (by intro i hi; rw [List.mem_range, List.length_map] at hi; exact hi)
  rw [hr]
  rfl

/-- C10 witness: the all-zero series stay in bounds (the lookups wrap to
the last two x-entries). -/
theorem C10_safe_witness : exOk (decide_posQ aW bW) = true :=
  C10_safe aW bW rfl rfl (by decide)

/-! ### The dedup-skip structure of the classifier (C7) -/

theorem yCoord_inj (i j : ℕ) : yCoord i = yCoord j ↔ i = j := by
  unfold yCoord
  constructor
  · intro h
    have h9 : (250 / 9 : ℚ) ≠ 0 := by norm_num
    have hc := mul_left_cancel₀ h9 h
    have hc2 : (i : ℚ) = j := by linarith
    exact_mod_cast hc2
  · intro h; rw [h]

/-- A successful `dpStep` either leaves the marker and accumulator alone,
or (only when the index is not the skipped one) appends index `i`'s
coordinates to one of the two groups and sets the marker to `i + 1`. -/
theorem dpStep_spec (a b : List MVal) (i ig ig2 : ℕ) (acc acc2 : DPAcc)
    (h : dpStep a b i ig acc = Except.ok (ig2, acc2)) :
    (ig2 = ig ∧ acc2 = acc) ∨
    (ig ≠ i ∧ ig2 = i + 1 ∧ ∃ x,
      acc2 = { acc with rx := acc.rx ++ [x], ry := acc.ry ++ [yCoord i] } ∨
      acc2 = { acc with gx := acc.gx ++ [x], gy := acc.gy ++ [yCoord i] }) := by
  unfold dpStep at h
  split at h
  · cases h; exact Or.inl ⟨rfl, rfl⟩
  · rename_i hig
    split at h
    · cases h
    · cases h
    · cases h; exact Or.inl ⟨rfl, rfl⟩
    · rename_i q hq
      split at h
      · dsimp only at h
        split at h
        · cases h
        · split at h
          · cases h
          · cases h
            exact Or.inr ⟨hig, rfl, q, Or.inl rfl⟩
          · split at h
            · cases h
            · split at h
              · cases h
              · cases h
                exact Or.inr ⟨hig, rfl, q, Or.inl rfl⟩
              · cases h
                exact Or.inr ⟨hig, rfl, q, Or.inr rfl⟩
      · cases h; exact Or.inl ⟨rfl, rfl⟩

/-- Invariant propagation for `dpGo` over a consecutive index range:
if every index contributed so far is below the current position, the
marker covers a contribution at the immediately preceding position, and no
two adjacent indices have contributed, then no two adjacent indices have
contributed in the final accumulator either. -/
theorem dpGo_adj (a b : List MVal) :
    ∀ (k p ig : ℕ) (acc r : DPAcc),
      dpGo a b (List.range' p k) ig acc = Except.ok r →
      (∀ j, hits acc j → j < p) →
      (∀ j, hits acc j → j + 1 = p → ig = p) →
      (∀ j, ¬(hits acc j ∧ hits acc (j + 1))) →
      ∀ j, ¬(hits r j ∧ hits r (j + 1)) := by
  intro k
  induction k with
  | zero =>
    intro p ig acc r h h1 h2 h3
    rw [List.range'_zero, dpGo] at h
    cases h
    exact h3
  | succ k ih =>
    intro p ig acc r h h1 h2 h3
    rw [List.range'_succ p k 1, dpGo] at h
    cases hstep : dpStep a b p ig acc with
    | error e => rw [hstep] at h; cases h
    | ok pr =>
      obtain ⟨ig2, acc2⟩ := pr
      rw [hstep] at h
      rcases dpStep_spec a b p ig ig2 acc acc2 hstep with ⟨h4, h5⟩ | ⟨hig, h4, x, hacc⟩
      · rw [h4, h5] at h
        apply ih (p + 1) ig acc r h
        · intro j hj; exact Nat.lt_succ_of_lt (h1 j hj)
        · intro j hj hj1
          exfalso
          have := h1 j hj
          omega
        · exact h3
      · rw [h4] at h
        have hhits : ∀ j, hits acc2 j ↔ hits acc j ∨ j = p := by
          intro j
          rcases hacc with rfl | rfl <;>
            simp [hits, List.mem_append, yCoord_inj] <;> tauto
        apply ih (p + 1) (p + 1) acc2 r h
        · intro j hj
          rcases (hhits j).mp hj with hj0 | heqj
          · exact Nat.lt_succ_of_lt (h1 j hj0)
          · omega
        · intro j hj hj1; rfl
        · intro j hjj
          obtain ⟨hja, hjb⟩ := hjj
          rcases (hhits j).mp hja with hj0 | heqj
          · rcases (hhits (j + 1)).mp hjb with hj1 | heq
            · exact h3 j ⟨hj0, hj1⟩
            · exact hig (h2 j hj0 heq)
          · rcases (hhits (j + 1)).mp hjb with hj1 | heq
            · have := h1 (j + 1) hj1
              omega
            · omega

/-- C7 (amended): the classifier never lets two adjacent indices both
contribute positions: whenever index `i` contributes, index `i + 1` is
skipped (the marker is set to `i + 1`).  Which index of a run of adjacent
low readings contributes depends on where the run starts (and index 0
never contributes, since the marker starts at 0). -/
theorem C7_amended (a b : List MVal) (r : DPAcc) (i : ℕ)
    (h : decide_pos a b = Except.ok r) : ¬(hits r i ∧ hits r (i + 1)) := by
  unfold decide_pos at h
  rw [List.range_eq_range'] at h
  apply dpGo_adj a b (a.length) 0 0 ⟨[], [], [], []⟩ r h
  · intro j hj; exact absurd hj (by simp [hits])
  · intro j hj; exact absurd hj (by simp [hits])
  · intro j hj; exact absurd hj.1 (by simp [hits])

/-- C7 witness: `C7_amended` at the concrete pair `a7`, `b7`, where index 1
contributes: index 2 therefore does not. -/
theorem C7_witness :
    ¬(hits ⟨[100], [500 / 9], [], []⟩ 1 ∧ hits ⟨[100], [500 / 9], [], []⟩ 2) :=
  C7_amended (a7.map MVal.num) (b7.map MVal.num) ⟨[100], [500 / 9], [], []⟩ 1
    (by with_unfolding_all decide)

/-! ### Dispatch lemmas for `recmsg` -/

theorem recmsg_X (s : RState) (m : Msg)
    (h : dlookup m.payload "origin" = some (MVal.str "XPi")) :
    recmsg s m = processX s m := by
  unfold recmsg
  rw [h]
  rfl

theorem recmsg_Y (s : RState) (m : Msg)
    (h : dlookup m.payload "origin" = some (MVal.str "YPi")) :
    recmsg s m = processY s m := by
  unfold recmsg
  rw [h]
  rfl

/-! ### Presentation publishes on every non-empty window (C4) -/

theorem sensorStep_skip (s : RState) (h : s.plot_list.length ≠ 5) :
    sensorStep s = (s, none) := by
  unfold sensorStep
  rw [if_neg h]

theorem setPositions_first (s : RState) (r : DPAcc) (h : s.list_x = []) :
    setPositions s r =
      ({ s with
          list_x := s.list_x ++ [r.gx, r.rx],
          list_y := s.list_y ++ [r.gy, r.ry] }, none) := by
  unfold setPositions
  rw [if_pos (by simp [h])]

/-- C4 (amended): the classified positions are derived from the latest
buffered sample and published to the shared position lists whenever the
history window is NON-EMPTY — there is no full-capacity gate on them; only
the 17 per-sensor series are withheld unless the window holds exactly 5
samples. -/
theorem C4_amended (s : RState) (xn yn : List MVal) (ts : MVal) (r : DPAcc)
    (h1 : s.plot_list ≠ [])
    (h2 : x_keys.mapM (fun k => dfLast s.plot_list k) = Except.ok xn)
    (h3 : y_keys.mapM (fun k => dfLast s.plot_list k) = Except.ok yn)
    (h4 : dfLast s.plot_list "timestamp" = Except.ok ts)
    (h5 : decide_pos yn xn = Except.ok r)
    (h6 : s.list_x = []) :
    (presentStep s).1.list_x = [r.gx, r.rx] ∧
    (s.plot_list.length ≠ 5 →
      (presentStep s).1.x_sensor_data_dict = s.x_sensor_data_dict ∧
      (presentStep s).1.y_sensor_data_dict = s.y_sensor_data_dict) := by
  unfold presentStep
  rw [if_neg h1, h2]
  dsimp only
  rw [h3]
  dsimp only
  rw [h4]
  dsimp only
  rw [h5]
  dsimp only
  rw [setPositions_first s r h6]
  dsimp only
  cases hts : tsSplit ts with
  | error e =>
    dsimp only
    constructor
    · simp [h6]
    · intro _
      exact ⟨rfl, rfl⟩
  | ok t =>
    dsimp only
    constructor
    · rw [(sensorStep_pres _).2.2.2]
      simp [h6]
    · intro hlen
      have hskip := sensorStep_skip
        { s with
            list_x := s.list_x ++ [r.gx, r.rx],
            list_y := s.list_y ++ [r.gy, r.ry],
            timestamp_list := push5 s.timestamp_list t } hlen
      rw [hskip]
      exact ⟨rfl, rfl⟩

/-- C4 witness: `C4_amended` on the single-sample window `oneSample`
(window length 1, far from 5): positions published, sensor series
untouched. -/
theorem C4_witness :
    (presentStep oneSample).1.list_x = [[100], []] ∧
    (presentStep oneSample).1.x_sensor_data_dict = oneSample.x_sensor_data_dict ∧
    (presentStep oneSample).1.y_sensor_data_dict = oneSample.y_sensor_data_dict := by
  obtain ⟨hpos, hdicts⟩ :=
    C4_amended oneSample xnW ynW (MVal.str "d 01:00:00") ⟨[100], [500 / 9], [], []⟩
      (by with_unfolding_all decide) (by with_unfolding_all decide)
      (by with_unfolding_all decide) (by with_unfolding_all decide)
      (by with_unfolding_all decide) rfl
  obtain ⟨hx, hy⟩ := hdicts (by with_unfolding_all decide)
  exact ⟨hpos, hx, hy⟩

/-! ### Persistence and presentability gates (C6) -/

theorem continueY_csv (s : RState)
    (hkeys : s.allData.all (fun p => csv_columns.contains p.1) = true) :
    (continueY s).1.csv_rows =
      if 14 < s.allData.length then s.csv_rows ++ [s.allData] else s.csv_rows := by
  unfold continueY csvStep
  by_cases hlen : 14 < s.allData.length
  · rw [if_pos hlen]
    unfold write_to_csv
    rw [if_pos hkeys]
    dsimp only
    rw [(presentStep_pres _).2.1]
    rw [if_pos hlen]
  · rw [if_neg hlen]
    dsimp only
    rw [(presentStep_pres _).2.1]
    rw [if_neg hlen]

theorem continueY_plot (s : RState)
    (hkeys : s.allData.all (fun p => csv_columns.contains p.1) = true) :
    (continueY s).1.plot_list = pushPlot s.plot_list s.allData := by
  unfold continueY csvStep
  by_cases hlen : 14 < s.allData.length
  · rw [if_pos hlen]
    unfold write_to_csv
    rw [if_pos hkeys]
    dsimp only
    rw [(presentStep_pres _).2.2]
  · rw [if_neg hlen]
    dsimp only
    rw [(presentStep_pres _).2.2]

/-- C6 (amended): after a RigY merge the sample is persisted (one row
handed to storage) exactly when its populated-field count exceeds 14; but
retention in the presentation buffer is gated only by the field count of
the buffer's OLDEST entry, so a sample with at most 14 fields is still
retained (and is the buffer's latest, presentable entry) whenever the
buffer's head has at least 15 fields — and always when the buffer is
already full. -/
theorem C6_amended (s : RState) (m : Msg) (kvs : List (String × ℚ))
    (horig : dlookup m.payload "origin" = some (MVal.str "YPi"))
    (hconv : convEntries (ddel m.payload "timestampy") = some kvs)
    (hkeys : (updAll s.allData kvs).all (fun p => csv_columns.contains p.1) = true) :
    ((recmsg s m).1.csv_rows =
      if 14 < (updAll s.allData kvs).length then s.csv_rows ++ [updAll s.allData kvs]
      else s.csv_rows) ∧
    (∀ d ds, s.plot_list = d :: ds → ds.length < 4 → 15 ≤ d.length →
      updAll s.allData kvs ∈ (recmsg s m).1.plot_list) ∧
    (5 ≤ s.plot_list.length → updAll s.allData kvs ∈ (recmsg s m).1.plot_list) := by
  rw [recmsg_Y s m horig]
  unfold processY
  rw [hconv]
  dsimp only
  refine ⟨?_, ?_, ?_⟩
  · rw [continueY_csv _ hkeys]
  · intro d ds hpl hds hdlen
    rw [continueY_plot _ hkeys]
    show updAll s.allData kvs ∈ pushPlot s.plot_list (updAll s.allData kvs)
    rw [hpl]
    unfold pushPlot
    rw [if_pos (by simp only [List.length_cons]; omega)]
    simp only [List.cons_append, List.headD_cons]
    rw [if_neg (by omega)]
    simp
  · intro hfull
    rw [continueY_plot _ hkeys]
    show updAll s.allData kvs ∈ pushPlot s.plot_list (updAll s.allData kvs)
    unfold pushPlot
    rw [if_neg (by omega)]
    simp

/-- C6 witness: `C6_amended` on the window `oneSample` and the five-field
RigY report `m6`: no CSV row is written, yet the merged five-field sample
is retained in the presentation buffer. -/
theorem C6_witness :
    small6 ∈ (recmsg oneSample m6).1.plot_list ∧
    (recmsg oneSample m6).1.csv_rows = [] := by
  obtain ⟨hcsv, hret, _⟩ := C6_amended oneSample m6 small6kvs
    (by with_unfolding_all decide) (by with_unfolding_all decide)
    (by with_unfolding_all decide)
  constructor
  · have hmem := hret bigD [] rfl (by decide) (by with_unfolding_all decide)
    have heq : updAll oneSample.allData small6kvs = small6 := by
      with_unfolding_all decide
    rw [heq] at hmem
    exact hmem
  · rw [hcsv]
    with_unfolding_all decide

/-! ### Fusion is merge-with-union, pz fields unrounded (C9) -/

theorem dlookup_mem {α : Type} (l : List (String × α)) (k : String) (v : α)
    (h : dlookup l k = some v) : (k, v) ∈ l := by
  induction l with
  | nil => cases h
  | cons p l ih =>
    obtain ⟨k0, v0⟩ := p
    rw [dlookup] at h
    by_cases hk : k0 = k
    · rw [if_pos hk] at h
      injection h with h
      subst hk; subst h
      exact List.mem_cons_self _ _
    · rw [if_neg hk] at h
      exact List.mem_cons_of_mem _ (ih h)

theorem dlookup_eq_none {α : Type} (l : List (String × α)) (k : String)
    (h : ∀ p ∈ l, p.1 ≠ k) : dlookup l k = none := by
  induction l with
  | nil => rfl
  | cons p l ih =>
    obtain ⟨k0, v0⟩ := p
    rw [dlookup]
    rw [if_neg (h (k0, v0) (List.mem_cons_self _ _))]
    exact ih (fun p hp => h p (List.mem_cons_of_mem _ hp))

theorem updAll_lookup_none (d : Dict) (l : List (String × ℚ)) (k : String)
    (h : dlookup l k = none) : dlookup (updAll d l) k = dlookup d k := by
  induction l generalizing d with
  | nil => rfl
  | cons p l ih =>
    obtain ⟨k0, q0⟩ := p
    rw [dlookup] at h
    by_cases hk : k0 = k
    · rw [if_pos hk] at h; cases h
    · rw [if_neg hk] at h
      show dlookup (updAll (dput d k0 (MVal.num q0)) l) k = dlookup d k
      rw [ih (dput d k0 (MVal.num q0)) h, dlookup_dput_ne d k0 k _ hk]

theorem updAll_lookup_nodup (d : Dict) (l : List (String × ℚ)) (k : String) (q : ℚ)
    (hnd : (l.map Prod.fst).Nodup) (h : dlookup l k = some q) :
    dlookup (updAll d l) k = some (MVal.num q) := by
  induction l generalizing d with
  | nil => cases h
  | cons p l ih =>
    obtain ⟨k0, q0⟩ := p
    rw [List.map_cons, List.nodup_cons] at hnd
    obtain ⟨hk0, hnd2⟩ := hnd
    rw [dlookup] at h
    by_cases hk : k0 = k
    · rw [if_pos hk] at h
      injection h with h
      subst hk; subst h
      show dlookup (updAll (dput d k0 (MVal.num q0)) l) k0 = some (MVal.num q0)
      have hnone : dlookup l k0 = none := by
        apply dlookup_eq_none
        intro p hp hpk
        have hm : p.1 ∈ List.map Prod.fst l := List.mem_map_of_mem Prod.fst hp
        rw [hpk] at hm
        exact hk0 hm
      rw [updAll_lookup_none _ _ _ hnone, dlookup_dput_self]
    · rw [if_neg hk] at h
      show dlookup (updAll (dput d k0 (MVal.num q0)) l) k = some (MVal.num q)
      exact ih (dput d k0 (MVal.num q0)) hnd2 h

theorem convEntries_keys_ne (l : List (String × MVal)) (kvs : List (String × ℚ))
    (h : convEntries l = some kvs) (k : String) (q : ℚ)
    (hk : dlookup kvs k = some q) : k ≠ "timestamp" ∧ k ≠ "piezoString" := by
  have hmem := dlookup_mem kvs k q hk
  have hnot := convEntries_keys l kvs h (k, q) hmem
  constructor
  · intro heq; exact hnot (by rw [heq]; simp [do_not_convert])
  · intro heq; exact hnot (by rw [heq]; simp [do_not_convert])

/-- C9 (amended): for an X-report followed by a Y-report with disjoint
field names, the fused sample holds the union of both contributions: every
converted body field carries its `round2`-rounded value (by construction of
the conversion), the four pz fields carry the UNROUNDED piezo tokens, and
the timestamp is the X-report's raw timestamp. -/
theorem C9_amended (s : RState) (m1 m2 : Msg) (q0 q1 q2 q3 : ℚ)
    (kx ky : List (String × ℚ)) (tsv : MVal)
    (h0 : s.ypiReceived = 0)
    (hox : dlookup m1.payload "origin" = some (MVal.str "XPi"))
    (hoy : dlookup m2.payload "origin" = some (MVal.str "YPi"))
    (hpz : m1.piezo = some [MVal.num q0, MVal.num q1, MVal.num q2, MVal.num q3])
    (hcx : convEntries m1.payload = some kx)
    (hnx : (kx.map Prod.fst).Nodup)
    (hts : dlookup m1.payload "timestamp" = some tsv)
    (hcy : convEntries (ddel m2.payload "timestampy") = some ky)
    (hny : (ky.map Prod.fst).Nodup)
    (hdisj : ∀ p ∈ kx, dlookup ky p.1 = none)
    (hpzx : ∀ nm ∈ pzNames, dlookup kx nm = none)
    (hpzy : ∀ nm ∈ pzNames, dlookup ky nm = none) :
    (∀ k q, dlookup kx k = some q →
      dlookup (recmsg (recmsg s m1).1 m2).1.allData k = some (MVal.num q)) ∧
    (∀ k q, dlookup ky k = some q →
      dlookup (recmsg (recmsg s m1).1 m2).1.allData k = some (MVal.num q)) ∧
    dlookup (recmsg (recmsg s m1).1 m2).1.allData "pz0" = some (MVal.num q0) ∧
    dlookup (recmsg (recmsg s m1).1 m2).1.allData "pz1" = some (MVal.num q1) ∧
    dlookup (recmsg (recmsg s m1).1 m2).1.allData "pz2" = some (MVal.num q2) ∧
    dlookup (recmsg (recmsg s m1).1 m2).1.allData "pz3" = some (MVal.num q3) ∧
    dlookup (recmsg (recmsg s m1).1 m2).1.allData "timestamp" = some tsv := by
  have hX : recmsg s m1 =
      ({ s with
          allData := ddel (dput (updAll [("pz0", MVal.num q0), ("pz1", MVal.num q1),
            ("pz2", MVal.num q2), ("pz3", MVal.num q3)] kx) "timestamp" tsv)
            "piezoString",
          xpiReceived := 0 }, none) := by
    rw [recmsg_X s m1 hox]
    unfold processX
    dsimp only
    rw [if_pos ⟨rfl, h0⟩, hpz]
    dsimp only
    rw [show setPz [] [MVal.num q0, MVal.num q1, MVal.num q2, MVal.num q3]
        = ([("pz0", MVal.num q0), ("pz1", MVal.num q1), ("pz2", MVal.num q2),
           ("pz3", MVal.num q3)], none) from rfl]
    dsimp only
    rw [hcx]
    dsimp only
    rw [hts]
  rw [hX]
  dsimp only
  rw [recmsg_Y _ m2 hoy]
  unfold processY
  rw [hcy]
  dsimp only
  rw [continueY_allData]
  dsimp only
  refine ⟨?_, ?_, ?_, ?_, ?_, ?_, ?_⟩
  · intro k q hq
    obtain ⟨hkts, hkpz⟩ := convEntries_keys_ne m1.payload kx hcx k q hq
    rw [updAll_lookup_none _ ky k (hdisj (k, q) (dlookup_mem kx k q hq))]
    rw [dlookup_ddel_ne _ "piezoString" k (fun hh => hkpz hh.symm)]
    rw [dlookup_dput_ne _ "timestamp" k tsv (fun hh => hkts hh.symm)]
    exact updAll_lookup_nodup _ kx k q hnx hq
  · intro k q hq
    exact updAll_lookup_nodup _ ky k q hny hq
  · rw [updAll_lookup_none _ ky _ (hpzy "pz0" (by simp [pzNames]))]
    rw [dlookup_ddel_ne _ "piezoString" "pz0" (by decide)]
    rw [dlookup_dput_ne _ "timestamp" "pz0" tsv (by decide)]
    rw [updAll_lookup_none _ kx _ (hpzx "pz0" (by simp [pzNames]))]
    rfl
  · rw [updAll_lookup_none _ ky _ (hpzy "pz1" (by simp [pzNames]))]
    rw [dlookup_ddel_ne _ "piezoString" "pz1" (by decide)]
    rw [dlookup_dput_ne _ "timestamp" "pz1" tsv (by decide)]
    rw [updAll_lookup_none _ kx _ (hpzx "pz1" (by simp [pzNames]))]
    rfl
  · rw [updAll_lookup_none _ ky _ (hpzy "pz2" (by simp [pzNames]))]
    rw [dlookup_ddel_ne _ "piezoString" "pz2" (by decide)]
    rw [dlookup_dput_ne _ "timestamp" "pz2" tsv (by decide)]
    rw [updAll_lookup_none _ kx _ (hpzx "pz2" (by simp [pzNames]))]
    rfl
  · rw [updAll_lookup_none _ ky _ (hpzy "pz3" (by simp [pzNames]))]
    rw [dlookup_ddel_ne _ "piezoString" "pz3" (by decide)]
    rw [dlookup_dput_ne _ "timestamp" "pz3" tsv (by decide)]
    rw [updAll_lookup_none _ kx _ (hpzx "pz3" (by simp [pzNames]))]
    rfl
  · have hkynots : dlookup ky "timestamp" = none := by
      apply dlookup_eq_none
      intro p hp
      exact convEntries_ne_timestamp _ ky hcy p hp
    rw [updAll_lookup_none _ ky _ hkynots]
    rw [dlookup_ddel_ne _ "piezoString" "timestamp" (by decide)]
    exact dlookup_dput_self _ "timestamp" tsv

/-- C9 witness: `C9_amended` on the concrete reports `mx9`, `my9`: the body
fields `x0`, `y1` and the timestamp survive, and `pz0` carries the
unrounded token `1.234`. -/
theorem C9_witness :
    dlookup (recmsg (recmsg initState mx9).1 my9).1.allData "pz0"
      = some (MVal.num (1234 / 1000)) ∧
    dlookup (recmsg (recmsg initState mx9).1 my9).1.allData "x0"
      = some (MVal.num 1) ∧
    dlookup (recmsg (recmsg initState mx9).1 my9).1.allData "y1"
      = some (MVal.num 2) ∧
    dlookup (recmsg (recmsg initState mx9).1 my9).1.allData "timestamp"
      = some (MVal.str "d 01:00:00") := by
  obtain ⟨ha, hb, hc, _, _, _, hg⟩ := C9_amended initState mx9 my9 (1234 / 1000) 1 1 1
    [("x0", 1)] [("y1", 2)] (MVal.str "d 01:00:00") rfl
    (by with_unfolding_all decide) (by with_unfolding_all decide) rfl
    (by with_unfolding_all decide) (by with_unfolding_all decide)
    (by with_unfolding_all decide) (by with_unfolding_all decide)
    (by with_unfolding_all decide) (by with_unfolding_all decide)
    (by with_unfolding_all decide) (by with_unfolding_all decide)
  exact ⟨hc, ha "x0" 1 (by with_unfolding_all decide),
    hb "y1" 2 (by with_unfolding_all decide), hg⟩

end WSN

